import Mathlib

/-!
Shallow embedding of the opentracing-go snapshot: the core
option/reference API (`part_000`, which holds two successive versions of
the tracer interface file), the ambient-context helper (`gocontext.go`)
and the mock tracer (`mocktracer/mocktracer.go`).

Modelling conventions:
* Go strings are lists of characters (`Str`); `strings.ToLower` is the
  character-wise `Char.toLower` map (every key involved is ASCII, where
  the Go function and `Char.toLower` agree).
* Go `int` is `Int` (64-bit overflow is irrelevant at the sizes involved).
* `time.Time` is an integer tick count (`GoTime`); the zero `time.Time`
  is `0`, matching `Time.IsZero`, and the wall clock is passed explicitly
  as a `now` argument to every operation whose Go source may call
  `time.Now()`.
* Mutation is explicit state passing: `MockSpan.Finish` returns the
  updated span and tracer, and the package-global id counter
  `mockIDSource` is threaded as an argument and result.
* Go maps (`map[string]string`) are association lists whose assignment
  operation (`mapSet`) overwrites an existing key in place and otherwise
  appends; iteration (`ForeachKey`, `range`) visits the list in order,
  one determinization of Go's unspecified map iteration order.
-/

abbrev Str := List Char

/-- Go `strings.ToLower`, at its ASCII behaviour. -/
def strToLower (s : Str) : Str := s.map Char.toLower

/-- Go `strings.HasPrefix s pre`. -/
def strStartsWith (s pre : Str) : Bool := pre.isPrefixOf s

/-- Modelled from the spec: the error taxonomy of section 7 plus the Go
`strconv` syntax error.  The error *values* (`ErrUnsupportedFormat`,
`ErrSpanMetadataNotFound` -- this snapshot's name for Trace-Not-Found --,
`ErrTraceCorrupted`, `ErrInvalidCarrier`) are declared in a repository
file that is not under `src/`; only their identity (distinctness)
matters, which the inductive provides.  `atoiSyntaxError` stands for the
`*strconv.NumError` value that `strconv.Atoi` returns on a non-numeric
input and that `MockTracer.Extract` propagates verbatim. -/
inductive GoError where
  | errUnsupportedFormat
  | errSpanMetadataNotFound
  | errTraceCorrupted
  | errInvalidCarrier
  | atoiSyntaxError (input : Str)
deriving DecidableEq

/-- Modelled from the spec: the builtin carrier format identifiers
(section 6: at minimum a text-map format and a binary format, extended by
identity-based registration).  Declared in a repository file that is not
under `src/`; Go compares them by interface identity, the inductive by
constructor. -/
inductive Format where
  | textMap
  | binary
  | custom (id : Nat)
deriving DecidableEq

/-- Modelled from the spec: tag values are "any serializable
scalar/structured type" (Go `interface\x7b\x7d`); a closed value universe
suffices because no claim inspects tag values. -/
inductive TagValue where
  | str (s : String)
  | int (i : Int)
  | bool (b : Bool)
deriving DecidableEq

/-- Modelled from the spec: one log record ("append-only event log"),
with the `Event`/`Payload` fields that `testtracer_test.go` and
`mocktracer.go` populate; declared in a repository file not under
`src/`. -/
structure LogData where
  Event : String := ""
  Payload : Option TagValue := none
deriving DecidableEq

/-- Go `time.Time`, as ticks; `0` is the zero `time.Time`. -/
abbrev GoTime := Int

/-- Modelled from the spec: "FinishOptions -- explicit finish timestamp
... and a batch of log records attached at finish time"; the structure
itself is declared in a repository file not under `src/`, its fields are
the ones `MockSpan.FinishWithOptions` reads. -/
structure FinishOptions where
  FinishTime : GoTime := 0
  BulkLogData : List LogData := []
deriving DecidableEq

/-! ### Go `strconv.Itoa` / `strconv.Atoi` -/

/-- The ASCII digit character for `d < 10`. -/
def digitChar (d : Nat) : Char := Char.ofNat (48 + d)

/-- Decimal digits of `n`, most significant first (the digits that
`strconv.Itoa` emits for a nonnegative value). -/
def natToDigits (n : Nat) : Str :=
  if n < 10 then [digitChar n]
  else natToDigits (n / 10) ++ [digitChar (n % 10)]
decreasing_by
  exact Nat.div_lt_self (by omega) (by omega)

/-- Helper for the correctness proof of `natToDigits`: the weight that a
leading accumulator digit picks up across `natToDigits n`. -/
def tenPow (n : Nat) : Nat :=
  if n < 10 then 10 else 10 * tenPow (n / 10)
decreasing_by
  exact Nat.div_lt_self (by omega) (by omega)

/-- The digit-consuming loop of Go `strconv.Atoi`: starting from `acc`,
consume decimal digits, failing on the first non-digit character. -/
def digitsVal (acc : Nat) : Str → Option Nat
  | [] => some acc
  | c :: rest =>
      if c.isDigit then digitsVal (10 * acc + (c.toNat - 48)) rest else none

/-- A nonempty all-digit run, as required by `strconv.Atoi` after the
optional sign. -/
def parseDigits : Str → Option Nat
  | [] => none
  | c :: rest => digitsVal 0 (c :: rest)

/-- Go `strconv.Atoi`: optional leading `+`/`-` sign followed by a
nonempty digit run; anything else is a syntax error carrying the
offending input.  (Go additionally range-errors past 64 bits, which no
value in this development reaches.) -/
def atoi (s : Str) : Except GoError Int :=
  match s with
  | [] => .error (.atoiSyntaxError s)
  | c :: rest =>
      if c = '-' then
        match parseDigits rest with
        | some n => .ok (-(n : Int))
        | none => .error (.atoiSyntaxError s)
      else if c = '+' then
        match parseDigits rest with
        | some n => .ok (n : Int)
        | none => .error (.atoiSyntaxError s)
      else
        match parseDigits (c :: rest) with
        | some n => .ok (n : Int)
        | none => .error (.atoiSyntaxError s)

/-- Go `strconv.Itoa`. -/
def itoa (n : Int) : Str :=
  if n < 0 then '-' :: natToDigits (-n).toNat else natToDigits n.toNat

/-! ### Go string-keyed maps (carriers and baggage) -/

/-- Go map assignment `m[k] = v`: overwrite the entry in place when the
key is present, append it otherwise. -/
def mapSet (m : List (Str × Str)) (k v : Str) : List (Str × Str) :=
  if k ∈ m.map Prod.fst then
    m.map (fun p => if p.1 = k then (k, v) else p)
  else m ++ [(k, v)]

/-! ### Version-1 core API (`part_000`, first file): `ReferenceType`,
`SpanReference`, `StartSpanOptions`, the ambient-context helper.  The
span-metadata type is left as a parameter `SM`, standing for the
`SpanMetadata` interface. -/

namespace V1

/-- Go `type ReferenceType int`. -/
abbrev ReferenceType := Int

/-- The canonical reference kinds (`iota` block of `part_000` v1). -/
def RefBlockedParent : ReferenceType := 0

def RefRPCClient : ReferenceType := 1

def RefStartedBefore : ReferenceType := 2

def RefFinishedBefore : ReferenceType := 3

/-- `func (r ReferenceType) IntraTrace() bool \x7b return r <= RefFinishedBefore \x7d`. -/
def ReferenceType.IntraTrace (r : ReferenceType) : Bool :=
  r ≤ RefFinishedBefore

/-- Go `type SpanReference struct \x7b Type ReferenceType; Metadata SpanMetadata \x7d`. -/
structure SpanReference (SM : Type) where
  type : ReferenceType
  metadata : SM
deriving DecidableEq

/-- `StartSpanOptions` of the v1 file; field defaults are the Go zero
values of a freshly allocated `StartSpanOptions\x7b\x7d`. -/
structure StartSpanOptions (SM : Type) where
  references : List (SpanReference SM) := []
  startTime : GoTime := 0
  tags : Option (List (String × TagValue)) := none
deriving DecidableEq

/-- A v1 `StartSpanOption` interface value is its `Apply` method. -/
abbrev StartSpanOption (SM : Type) := StartSpanOptions SM → StartSpanOptions SM

/-- `func (r SpanReference) Apply(o *StartSpanOptions)`: append to the
reference list. -/
def SpanReference.Apply {SM : Type} (r : SpanReference SM)
    (o : StartSpanOptions SM) : StartSpanOptions SM :=
  { o with references := o.references ++ [r] }

/-- `func (r ReferenceType) Point(referent SpanMetadata) SpanReference`. -/
def ReferenceType.Point {SM : Type} (r : ReferenceType) (referent : SM) :
    SpanReference SM :=
  { type := r, metadata := referent }

/-- The option-application loop `for _, o := range opts \x7b o.Apply(&sso) \x7d`
shared by every v1 tracer implementation (e.g. `testTracer.StartSpan`). -/
def applyOptions {SM : Type} (opts : List (StartSpanOption SM))
    (init : StartSpanOptions SM) : StartSpanOptions SM :=
  opts.foldl (fun o f => f o) init

/-- A v1 `Tracer` implementation, reduced to the two methods
`gocontext.go` consumes: span creation from *assembled* options (the
factoring that `testtracer_test.go` spells `startSpanWithOptions`) and
`Span.Metadata()` read back from a created span. -/
structure Tracer (Span SM : Type) where
  startSpanWithOptions : String → StartSpanOptions SM → Span
  Metadata : Span → SM

/-- `Tracer.StartSpan(name, opts...)`: apply the options to a zero-valued
`StartSpanOptions`, then create the span. -/
def Tracer.StartSpan {Span SM : Type} (t : Tracer Span SM) (name : String)
    (opts : List (StartSpanOption SM)) : Span :=
  t.startSpanWithOptions name (applyOptions opts {})

/-- Go `context.Context`, restricted to the single key
(`activeSpanKey`) that `gocontext.go` ever stores: a chain of
`context.WithValue` frames over `context.Background()`. -/
inductive GoContext (Span : Type) where
  | background
  | withSpan (parent : GoContext Span) (sp : Span)

/-- `ContextWithSpan(ctx, span) = context.WithValue(ctx, activeSpanKey, span)`. -/
def ContextWithSpan {Span : Type} (ctx : GoContext Span) (sp : Span) :
    GoContext Span :=
  .withSpan ctx sp

/-- `SpanFromContext`: the innermost `activeSpanKey` binding, or `nil`. -/
def SpanFromContext {Span : Type} : GoContext Span → Option Span
  | .background => none
  | .withSpan _ sp => some sp

/-- `startSpanFromContextWithTracer` (`gocontext.go:44-52`): if a parent
span is bound, start with a single `RefBlockedParent.Point` reference to
its metadata, else start a root span; bind the new span into the
returned context.  The variadic `opts` parameter is accepted and, as in
the source, not forwarded. -/
def startSpanFromContextWithTracer {Span SM : Type} (tracer : Tracer Span SM)
    (ctx : GoContext Span) (operationName : String)
    (opts : List (StartSpanOption SM)) : Span × GoContext Span :=
  match SpanFromContext ctx with
  | some parentSpan =>
      let span := tracer.StartSpan operationName
        [(ReferenceType.Point RefBlockedParent (tracer.Metadata parentSpan)).Apply]
      (span, ContextWithSpan ctx span)
  | none =>
      let span := tracer.StartSpan operationName []
      (span, ContextWithSpan ctx span)

end V1

/-! ### Version-2 core API (`part_000`, second file): `CausalReference`
and functional `StartSpanOption`s; this is the options layer the mock
tracer consumes. -/

namespace V2

/-- Go `type CausalReferenceType int`. -/
abbrev CausalReferenceType := Int

/-- The `iota` block of `part_000` v2. -/
def RefStartsBefore : CausalReferenceType := 0

def RefBlockedOnFinish : CausalReferenceType := 1

def RefFinishesBefore : CausalReferenceType := 2

def RefBlockedParent : CausalReferenceType := 3

def RefRPCClient : CausalReferenceType := 4

/-- Go `type CausalReference struct \x7b RefType CausalReferenceType;
SpanMetadata \x7d` -- the embedded referent field, named `SpanMetadata` as
`mocktracer.go` accesses it (`opts.CausalReferences[0].SpanMetadata`). -/
structure CausalReference (SM : Type) where
  RefType : CausalReferenceType
  SpanMetadata : SM
deriving DecidableEq

/-- `StartSpanOptions` of the v2 file; field defaults are the Go zero
values. -/
structure StartSpanOptions (SM : Type) where
  CausalReferences : List (CausalReference SM) := []
  StartTime : GoTime := 0
  Tags : Option (List (String × TagValue)) := none
deriving DecidableEq

/-- Go `type StartSpanOption func(*StartSpanOptions)`. -/
abbrev StartSpanOption (SM : Type) := StartSpanOptions SM → StartSpanOptions SM

/-- `func Reference(t CausalReferenceType, sc SpanMetadata) StartSpanOption`:
append one causal reference. -/
def Reference {SM : Type} (t : CausalReferenceType) (sc : SM) :
    StartSpanOption SM :=
  fun opts =>
    { opts with
      CausalReferences := opts.CausalReferences ++ [⟨t, sc⟩] }

/-- `func StartTime(t time.Time) StartSpanOption`. -/
def StartTimeOption {SM : Type} (t : GoTime) : StartSpanOption SM :=
  fun opts => { opts with StartTime := t }

/-- The option-application loop `for _, o := range opts \x7b o(&sso) \x7d` of
`MockTracer.StartSpan`. -/
def applyOptions {SM : Type} (opts : List (StartSpanOption SM))
    (init : StartSpanOptions SM) : StartSpanOptions SM :=
  opts.foldl (fun o f => f o) init

end V2

/-! ### The mock tracer (`mocktracer/mocktracer.go`), monomorphized at
its own metadata type (every type assertion `sm.(*MockSpanMetadata)` in
the source succeeds on values this tracer produces). -/

/-- `type MockSpanMetadata struct \x7b SpanID int; Baggage map[string]string \x7d`. -/
structure MockSpanMetadata where
  SpanID : Int
  Baggage : List (Str × Str)
deriving DecidableEq

/-- `func newMockSpanMetadata(spanID int) *MockSpanMetadata`. -/
def newMockSpanMetadata (spanID : Int) : MockSpanMetadata :=
  { SpanID := spanID, Baggage := [] }

/-- `MockSpan`, without the Go back-pointer `tracer` field: the tracer
state is passed explicitly to `Finish`/`FinishWithOptions` instead. -/
structure MockSpan where
  ParentID : Int
  OperationName : String
  StartTime : GoTime
  FinishTime : GoTime := 0
  Tags : List (String × TagValue)
  Logs : List LogData
  spanMetadata : MockSpanMetadata
deriving DecidableEq

/-- `type MockTracer struct \x7b FinishedSpans []*MockSpan \x7d`. -/
structure MockTracer where
  FinishedSpans : List MockSpan
deriving DecidableEq

/-- `func New() *MockTracer`. -/
def MockTracer.New : MockTracer :=
  { FinishedSpans := [] }

/-- `func (t *MockTracer) Reset()`. -/
def MockTracer.Reset (_t : MockTracer) : MockTracer :=
  { FinishedSpans := [] }

/-- `func nextMockID() int` over the package global `mockIDSource`
(initially `1`): increment, then return; the global is threaded
explicitly.  Returns (new id, new value of `mockIDSource`). -/
def nextMockID (mockIDSource : Int) : Int × Int :=
  (mockIDSource + 1, mockIDSource + 1)

/-- `func newMockSpan(t *MockTracer, name string, opts
opentracing.StartSpanOptions) *MockSpan` (`mocktracer.go:133-156`); the
id-source global is threaded, `now` is the wall clock at the call. -/
def newMockSpan (name : String) (opts : V2.StartSpanOptions MockSpanMetadata)
    (mockIDSource : Int) (now : GoTime) : MockSpan × Int :=
  let tags := match opts.Tags with
    | none => []
    | some t => t
  let parentID : Int := match opts.CausalReferences with
    | [] => 0
    | r :: _ => r.SpanMetadata.SpanID
  let startTime := if opts.StartTime = 0 then now else opts.StartTime
  let (newID, src') := nextMockID mockIDSource
  ({ ParentID := parentID
     OperationName := name
     StartTime := startTime
     FinishTime := 0
     Tags := tags
     Logs := []
     spanMetadata := newMockSpanMetadata newID }, src')

/-- `func (t *MockTracer) StartSpan(operationName string, opts
...opentracing.StartSpanOption)`: apply the options to a zero value,
then `newMockSpan`. -/
def MockTracer.StartSpan (operationName : String)
    (opts : List (V2.StartSpanOption MockSpanMetadata))
    (mockIDSource : Int) (now : GoTime) : MockSpan × Int :=
  newMockSpan operationName (V2.applyOptions opts {}) mockIDSource now

/-- `const mockTextMapIdsPrefix = "mockpfx-ids-"`. -/
def mockTextMapIdsPfx : Str := ("mockpfx-ids-").toList

/-- `const mockTextMapBaggagePrefix = "mockpfx-baggage-"`. -/
def mockTextMapBaggagePfx : Str := ("mockpfx-baggage-").toList

/-- The identity key `mockTextMapIdsPrefix+"spanid"` written by `Inject`
and matched by `Extract`. -/
def mockSpanidKey : Str := mockTextMapIdsPfx ++ ("spanid").toList

/-- `func (t *MockTracer) Inject(sm, format, carrier) error`
(`mocktracer.go:66-80`).  The carrier is a text-map; its `Set` method is
Go map assignment.  Returns the carrier after all writes together with
the returned error (`nil` = `none`). -/
def MockTracer.Inject (sm : MockSpanMetadata) (format : Format)
    (carrier : List (Str × Str)) : List (Str × Str) × Option GoError :=
  match format with
  | .textMap =>
      let c1 := mapSet carrier mockSpanidKey (itoa sm.SpanID)
      let c2 := sm.Baggage.foldl
        (fun c kv => mapSet c (mockTextMapBaggagePfx ++ kv.1) kv.2) c1
      (c2, none)
  | _ => (carrier, some .errUnsupportedFormat)

/-- The visitor closure passed to `ForeachKey` inside
`MockTracer.Extract` (`mocktracer.go:87-102`), acting on the
accumulating `rval`. -/
def mockExtractVisit (rval : MockSpanMetadata) (key val : Str) :
    Except GoError MockSpanMetadata :=
  let lowerKey := strToLower key
  if lowerKey = mockSpanidKey then
    match atoi val with
    | .error e => .error e
    | .ok i => .ok { rval with SpanID := i }
  else if strStartsWith lowerKey mockTextMapBaggagePfx then
    .ok { rval with
          Baggage := mapSet rval.Baggage
            (lowerKey.drop mockTextMapBaggagePfx.length) val }
  else .ok rval

/-- `TextMapReader.ForeachKey` over the carrier entries: visit each
key/value in order, aborting on (and returning) the first visitor error;
`rval` keeps the mutations applied before the abort. -/
def foreachKeyRun (rval : MockSpanMetadata) :
    List (Str × Str) → MockSpanMetadata × Option GoError
  | [] => (rval, none)
  | (k, v) :: rest =>
      match mockExtractVisit rval k v with
      | .ok rval' => foreachKeyRun rval' rest
      | .error e => (rval, some e)

/-- `func (t *MockTracer) Extract(format, carrier) (SpanMetadata, error)`
(`mocktracer.go:83-106`): on `TextMap`, `return rval, err` -- note the
accumulated `rval` is returned even when `err != nil`; on any other
format, `return nil, ErrSpanMetadataNotFound`. -/
def MockTracer.Extract (format : Format) (carrier : List (Str × Str)) :
    Option MockSpanMetadata × Option GoError :=
  match format with
  | .textMap =>
      let r := foreachKeyRun (newMockSpanMetadata 0) carrier
      (some r.1, r.2)
  | _ => (none, some .errSpanMetadataNotFound)

/-- `func (s *MockSpan) Finish()` (`mocktracer.go:170-173`): stamp
`time.Now()`, append the span to its tracer's `FinishedSpans`. -/
def MockSpan.Finish (s : MockSpan) (t : MockTracer) (now : GoTime) :
    MockSpan × MockTracer :=
  let s' := { s with FinishTime := now }
  (s', { t with FinishedSpans := t.FinishedSpans ++ [s'] })

/-- `func (s *MockSpan) FinishWithOptions(opts FinishOptions)`
(`mocktracer.go:176-180`): record `opts.FinishTime` as given, append the
bulk log records after the incrementally logged ones, append the span to
`FinishedSpans`.  The wall clock `now` is passed for uniformity with
`Finish`; the source never consults it here. -/
def MockSpan.FinishWithOptions (s : MockSpan) (t : MockTracer)
    (opts : FinishOptions) (_now : GoTime) : MockSpan × MockTracer :=
  let s' := { s with
              FinishTime := opts.FinishTime
              Logs := s.Logs ++ opts.BulkLogData }
  (s', { t with FinishedSpans := t.FinishedSpans ++ [s'] })

/-- `func (s *MockSpan) Log(data opentracing.LogData)`. -/
def MockSpan.Log (s : MockSpan) (data : LogData) : MockSpan :=
  { s with Logs := s.Logs ++ [data] }

/-! ## Lemmas -/

/-! ### `strconv` round trip -/

theorem digitChar_isDigit (d : Nat) (h : d < 10) : (digitChar d).isDigit = true := by
  unfold digitChar
  interval_cases d <;> decide

theorem digitChar_toNat (d : Nat) (h : d < 10) : (digitChar d).toNat = 48 + d := by
  unfold digitChar
  interval_cases d <;> decide

theorem natToDigits_ne_nil (n : Nat) : natToDigits n ≠ [] := by
  rw [natToDigits]
  split_ifs <;> simp

theorem mem_natToDigits_isDigit (n : Nat) : ∀ c ∈ natToDigits n, c.isDigit = true := by
  induction n using Nat.strong_induction_on with
  | _ n ih =>
    intro c hc
    rw [natToDigits] at hc
    split_ifs at hc with h
    · simp only [List.mem_singleton] at hc
      exact hc ▸ digitChar_isDigit n h
    · rw [List.mem_append, List.mem_singleton] at hc
      rcases hc with hc | hc
      · exact ih (n / 10) (Nat.div_lt_self (by omega) (by omega)) c hc
      · exact hc ▸ digitChar_isDigit (n % 10) (Nat.mod_lt _ (by omega))

theorem digitsVal_append (l₁ l₂ : Str) (acc : Nat) :
    digitsVal acc (l₁ ++ l₂) = (digitsVal acc l₁).bind fun a => digitsVal a l₂ := by
  induction l₁ generalizing acc with
  | nil => simp [digitsVal]
  | cons c rest ih =>
    simp only [List.cons_append, digitsVal]
    split_ifs with h
    · exact ih _
    · simp

theorem digitsVal_natToDigits (n : Nat) :
    ∀ acc, digitsVal acc (natToDigits n) = some (acc * tenPow n + n) := by
  induction n using Nat.strong_induction_on with
  | _ n ih =>
    intro acc
    rw [natToDigits, tenPow]
    split_ifs with h
    · simp only [digitsVal, digitChar_isDigit n h, if_true, digitChar_toNat n h]
      congr 1
      omega
    · rw [digitsVal_append, ih (n / 10) (Nat.div_lt_self (by omega) (by omega)) acc]
      have hm : n % 10 < 10 := Nat.mod_lt _ (by omega)
      simp only [Option.some_bind, digitsVal, digitChar_isDigit _ hm, if_true,
        digitChar_toNat _ hm]
      congr 1
      have h1 : 10 * (acc * tenPow (n / 10) + n / 10)
          = 10 * (acc * tenPow (n / 10)) + 10 * (n / 10) := by ring
      have h2 : acc * (10 * tenPow (n / 10)) = 10 * (acc * tenPow (n / 10)) := by ring
      rw [h1, h2]
      generalize acc * tenPow (n / 10) = A
      omega

theorem parseDigits_natToDigits (n : Nat) : parseDigits (natToDigits n) = some n := by
  obtain ⟨c, rest, h⟩ := List.exists_cons_of_ne_nil (natToDigits_ne_nil n)
  have hv := digitsVal_natToDigits n 0
  rw [h] at hv ⊢
  simpa [parseDigits] using hv

theorem isDigit_ne_minus {c : Char} (h : c.isDigit = true) : ¬ c = '-' := by
  intro e
  rw [e] at h
  exact absurd h (by decide)

theorem isDigit_ne_plus {c : Char} (h : c.isDigit = true) : ¬ c = '+' := by
  intro e
  rw [e] at h
  exact absurd h (by decide)

theorem atoi_natToDigits (m : Nat) : atoi (natToDigits m) = Except.ok (m : Int) := by
  obtain ⟨c, rest, h⟩ := List.exists_cons_of_ne_nil (natToDigits_ne_nil m)
  have hc : c.isDigit = true := mem_natToDigits_isDigit m c (by rw [h]; exact List.mem_cons_self c rest)
  have hp := parseDigits_natToDigits m
  rw [h] at hp ⊢
  rw [atoi, if_neg (isDigit_ne_minus hc), if_neg (isDigit_ne_plus hc), hp]

/-- `strconv.Atoi` inverts `strconv.Itoa` on every Go int. -/
theorem atoi_itoa (n : Int) : atoi (itoa n) = Except.ok n := by
  unfold itoa
  split_ifs with h
  · rw [atoi, if_pos rfl, parseDigits_natToDigits]
    simp only [Except.ok.injEq]
    omega
  · rw [atoi_natToDigits]
    simp only [Except.ok.injEq]
    omega

/-! ### String and map lemmas -/

theorem strStartsWith_append (p k : Str) : strStartsWith (p ++ k) p = true := by
  induction p with
  | nil => simp [strStartsWith, List.isPrefixOf]
  | cons c cs ih =>
    simp only [strStartsWith, List.cons_append, List.isPrefixOf, beq_self_eq_true,
      Bool.true_and] at ih ⊢
    exact ih

theorem strToLower_append (a b : Str) :
    strToLower (a ++ b) = strToLower a ++ strToLower b :=
  List.map_append Char.toLower a b

theorem strToLower_spanidKey : strToLower mockSpanidKey = mockSpanidKey := by decide

theorem strToLower_baggagePfx :
    strToLower mockTextMapBaggagePfx = mockTextMapBaggagePfx := by decide

theorem bagKey_ne_spanidKey (k : Str) : ¬ mockTextMapBaggagePfx ++ k = mockSpanidKey := by
  intro h
  have h16 : (mockTextMapBaggagePfx ++ k).take mockTextMapBaggagePfx.length
      = mockSpanidKey.take mockTextMapBaggagePfx.length := by rw [h]
  rw [List.take_left] at h16
  exact absurd h16 (by decide)

theorem mapSet_fresh (m : List (Str × Str)) (k v : Str)
    (h : k ∉ m.map Prod.fst) : mapSet m k v = m ++ [(k, v)] := by
  simp [mapSet, h]

/-! ### `Inject` into a fresh carrier -/

theorem inject_fold (bag : List (Str × Str)) :
    ∀ c : List (Str × Str),
      ((bag.map Prod.fst).map strToLower).Nodup →
      (∀ kv ∈ bag, (mockTextMapBaggagePfx ++ kv.1) ∉ c.map Prod.fst) →
      bag.foldl (fun c kv => mapSet c (mockTextMapBaggagePfx ++ kv.1) kv.2) c
        = c ++ bag.map (fun kv => (mockTextMapBaggagePfx ++ kv.1, kv.2)) := by
  induction bag with
  | nil => intro c _ _; simp
  | cons kv rest ih =>
    intro c hnd hfresh
    simp only [List.map_cons, List.nodup_cons] at hnd
    simp only [List.foldl_cons]
    rw [mapSet_fresh _ _ _ (hfresh kv (List.mem_cons_self kv rest))]
    rw [ih (c ++ [(mockTextMapBaggagePfx ++ kv.1, kv.2)]) hnd.2 ?_]
    · simp
    · intro kv' h'
      simp only [List.map_append, List.mem_append]
      rintro (hin | hin)
      · exact hfresh kv' (List.mem_cons_of_mem kv h') hin
      · simp only [List.map_cons, List.map_nil, List.mem_singleton] at hin
        have hkeys : kv'.1 = kv.1 := by
          have := congrArg (fun l => l.drop mockTextMapBaggagePfx.length) hin
          simpa [List.drop_left] using this
        exact hnd.1 (by
          rw [← hkeys]
          exact List.mem_map_of_mem strToLower (List.mem_map_of_mem Prod.fst h'))

/-- The carrier that `Inject` produces from a fresh (empty) text map:
the spanid entry followed by the prefixed baggage entries in order. -/
theorem inject_fresh_carrier (sm : MockSpanMetadata)
    (hnd : ((sm.Baggage.map Prod.fst).map strToLower).Nodup) :
    MockTracer.Inject sm Format.textMap []
      = ((mockSpanidKey, itoa sm.SpanID) ::
          sm.Baggage.map (fun kv => (mockTextMapBaggagePfx ++ kv.1, kv.2)), none) := by
  simp only [MockTracer.Inject]
  rw [show mapSet [] mockSpanidKey (itoa sm.SpanID)
      = [(mockSpanidKey, itoa sm.SpanID)] from by simp [mapSet]]
  rw [inject_fold sm.Baggage _ hnd ?_]
  · simp
  · intro kv _
    simp only [List.map_cons, List.map_nil, List.mem_singleton]
    exact bagKey_ne_spanidKey kv.1

/-! ### `Extract` over a text-map carrier -/

theorem extract_bag_fold (bag : List (Str × Str)) :
    ∀ sm : MockSpanMetadata,
      ((bag.map Prod.fst).map strToLower).Nodup →
      (∀ kv ∈ bag, strToLower kv.1 ∉ sm.Baggage.map Prod.fst) →
      foreachKeyRun sm (bag.map fun kv => (mockTextMapBaggagePfx ++ kv.1, kv.2))
        = ({ sm with
             Baggage := sm.Baggage ++ bag.map fun kv => (strToLower kv.1, kv.2) },
           none) := by
  induction bag with
  | nil => intro sm _ _; simp [foreachKeyRun]
  | cons kv rest ih =>
    intro sm hnd hfresh
    simp only [List.map_cons, List.nodup_cons] at hnd
    have hvisit : mockExtractVisit sm (mockTextMapBaggagePfx ++ kv.1) kv.2
        = .ok { sm with Baggage := sm.Baggage ++ [(strToLower kv.1, kv.2)] } := by
      simp only [mockExtractVisit, strToLower_append, strToLower_baggagePfx]
      rw [if_neg (bagKey_ne_spanidKey (strToLower kv.1)),
        if_pos (strStartsWith_append mockTextMapBaggagePfx (strToLower kv.1)),
        List.drop_left,
        mapSet_fresh _ _ _ (hfresh kv (List.mem_cons_self kv rest))]
    simp only [List.map_cons, foreachKeyRun, hvisit]
    rw [ih { sm with Baggage := sm.Baggage ++ [(strToLower kv.1, kv.2)] } hnd.2 ?_]
    · simp
    · intro kv' h'
      simp only [List.map_append, List.mem_append, List.map_cons, List.map_nil,
        List.mem_singleton, not_or]
      refine ⟨hfresh kv' (List.mem_cons_of_mem kv h'), fun he => hnd.1 ?_⟩
      rw [← he]
      exact List.mem_map_of_mem strToLower (List.mem_map_of_mem Prod.fst h')

/-- Full behaviour of `Extract(TextMap, ·)` on the carrier `Inject`
writes into a fresh text map: nil error, the injected `SpanID`, and the
baggage entries with their keys lowercased. -/
theorem extract_inject_textmap (sm : MockSpanMetadata)
    (hnd : ((sm.Baggage.map Prod.fst).map strToLower).Nodup) :
    MockTracer.Extract Format.textMap (MockTracer.Inject sm Format.textMap []).1
      = (some { SpanID := sm.SpanID
                Baggage := sm.Baggage.map fun kv => (strToLower kv.1, kv.2) },
         none) := by
  rw [inject_fresh_carrier sm hnd]
  have hvisit : mockExtractVisit (newMockSpanMetadata 0) mockSpanidKey (itoa sm.SpanID)
      = .ok { SpanID := sm.SpanID, Baggage := [] } := by
    simp only [mockExtractVisit, strToLower_spanidKey]
    rw [if_pos trivial, atoi_itoa]
    rfl
  have hrun := extract_bag_fold sm.Baggage { SpanID := sm.SpanID, Baggage := [] }
    hnd (by intro kv _; simp)
  simp only [MockTracer.Extract, foreachKeyRun, hvisit, hrun]
  simp

/-- `ForeachKey` over a concatenated entry list: when the first part
visits without error, the run continues over the second part from the
accumulated metadata. -/
theorem foreachKeyRun_append_ok (l1 : List (Str × Str)) :
    ∀ sm : MockSpanMetadata, (foreachKeyRun sm l1).2 = none →
      ∀ l2, foreachKeyRun sm (l1 ++ l2) = foreachKeyRun (foreachKeyRun sm l1).1 l2 := by
  induction l1 with
  | nil => intro sm _ l2; rfl
  | cons kv tail ih =>
    intro sm h l2
    obtain ⟨k, v⟩ := kv
    cases hvis : mockExtractVisit sm k v with
    | ok sm' =>
      simp only [foreachKeyRun, hvis] at h
      simp only [List.cons_append, foreachKeyRun, hvis]
      exact ih sm' h l2
    | error e =>
      simp only [foreachKeyRun, hvis] at h
      exact Option.noConfusion h

/-! ## Claim theorems -/

/-- Claim C1 (corrected).  Inject-then-Extract over `TextMap` on a fresh
carrier returns nil error and a context with the same `SpanID`, and the
baggage values are preserved -- but `Extract` lowercases every baggage
key (`strings.ToLower` on the carrier key before stripping the prefix),
so the baggage pairs come back with lowercased keys; they are identical
to the original pairs exactly when the original keys are already
lowercase.  The hypothesis (lowercased baggage keys pairwise distinct)
holds for every Go `map[string]string` without case-colliding keys. -/
theorem mock_textmap_roundtrip (sm : MockSpanMetadata)
    (hnd : ((sm.Baggage.map Prod.fst).map strToLower).Nodup) :
    MockTracer.Extract Format.textMap (MockTracer.Inject sm Format.textMap []).1
      = (some { SpanID := sm.SpanID
                Baggage := sm.Baggage.map fun kv => (strToLower kv.1, kv.2) },
         none)
    ∧ ((∀ kv ∈ sm.Baggage, strToLower kv.1 = kv.1) →
        MockTracer.Extract Format.textMap (MockTracer.Inject sm Format.textMap []).1
          = (some sm, none)) := by
  refine ⟨extract_inject_textmap sm hnd, fun hlow => ?_⟩
  rw [extract_inject_textmap sm hnd]
  have hmap : (sm.Baggage.map fun kv => (strToLower kv.1, kv.2)) = sm.Baggage := by
    calc sm.Baggage.map (fun kv => (strToLower kv.1, kv.2))
        = sm.Baggage.map id :=
          List.map_congr_left (fun kv hkv => by rw [hlow kv hkv]; rfl)
      _ = sm.Baggage := List.map_id sm.Baggage
  rw [hmap]

/-- Witness for C1: a context with lowercase baggage keys round-trips to
itself with nil error. -/
theorem mock_textmap_roundtrip_witness :
    (((([((['b','a','g'] : Str), (['x'] : Str))] : List (Str × Str)).map
        Prod.fst).map strToLower).Nodup)
    ∧ MockTracer.Extract Format.textMap
        (MockTracer.Inject { SpanID := 7, Baggage := [(['b','a','g'], ['x'])] }
          Format.textMap []).1
      = (some { SpanID := 7, Baggage := [(['b','a','g'], ['x'])] }, none) :=
  ⟨by decide,
   (mock_textmap_roundtrip { SpanID := 7, Baggage := [(['b','a','g'], ['x'])] }
      (by decide)).2 (by decide)⟩

/-- Counterexample for C1 as stated: a context whose baggage key contains
an uppercase letter does not round-trip to identical baggage pairs -- the
key comes back lowercased, so the original pair is absent from the
extracted baggage (order-independence cannot repair this). -/
theorem mock_textmap_roundtrip_ce :
    MockTracer.Extract Format.textMap
        (MockTracer.Inject { SpanID := 7, Baggage := [(['A'], ['x'])] }
          Format.textMap []).1
      = (some { SpanID := 7, Baggage := [(['a'], ['x'])] }, none)
    ∧ ({ SpanID := 7, Baggage := [(['a'], ['x'])] } : MockSpanMetadata)
        ≠ { SpanID := 7, Baggage := [(['A'], ['x'])] }
    ∧ ¬ (((['A'] : Str), (['x'] : Str)) ∈ ([(['a'], ['x'])] : List (Str × Str))) := by
  have h := extract_inject_textmap { SpanID := 7, Baggage := [(['A'], ['x'])] } (by decide)
  have hmap : (([((['A'] : Str), (['x'] : Str))] : List (Str × Str)).map
      fun kv => (strToLower kv.1, kv.2)) = [(['a'], ['x'])] := by decide
  rw [hmap] at h
  exact ⟨h, by decide, by decide⟩

/-- Claim C2 (code_bug).  `Extract(TextMap, emptyCarrier)` does not fail
with Trace-Not-Found: the loop finds no identity key, yet the mock
returns the zero-valued metadata (`SpanID` 0, empty baggage) with a nil
error, contradicting the `Tracer.Extract` contract documented in this
repository ("If there was simply no SpanMetadata to extract in carrier,
Extract() returns (nil, opentracing.ErrTraceNotFound)"). -/
theorem mock_extract_empty_carrier :
    MockTracer.Extract Format.textMap []
      = (some { SpanID := 0, Baggage := [] }, none) := rfl

/-- Claim C3 (code_bug).  For an unrecognized format, `Inject` behaves as
claimed (fails with Unsupported-Format, zero carrier writes), but
`Extract` returns `ErrSpanMetadataNotFound` -- the trace-not-found
value, not Unsupported-Format -- contradicting the `Tracer.Extract`
contract documented in this repository ("If format is unsupported or
unrecognized, Extract() returns (nil, opentracing.ErrUnsupportedFormat)").
Evaluated at the builtin `Binary` format and at a foreign format value. -/
theorem mock_unsupported_format :
    MockTracer.Inject { SpanID := 5, Baggage := [] } Format.binary []
      = ([], some GoError.errUnsupportedFormat)
    ∧ MockTracer.Inject { SpanID := 5, Baggage := [] } (Format.custom 99)
        [(['k'], ['v'])]
      = ([(['k'], ['v'])], some GoError.errUnsupportedFormat)
    ∧ MockTracer.Extract Format.binary [(['k'], ['v'])]
      = (none, some GoError.errSpanMetadataNotFound)
    ∧ MockTracer.Extract (Format.custom 99) []
      = (none, some GoError.errSpanMetadataNotFound)
    ∧ GoError.errSpanMetadataNotFound ≠ GoError.errUnsupportedFormat := by
  exact ⟨rfl, rfl, rfl, rfl, by decide⟩

/-- Claim C4 (corrected, amended form).  For every carrier in which the
recognized identity key -- in any letter case, since the visitor matches
on the lowercased key -- holds a non-numeric value, and whose preceding
entries visit without error (otherwise the run aborts at that earlier
point instead), extraction aborts at the corrupt key immediately: the
entries after it are never visited, the propagated error is the
`strconv.Atoi` syntax error rather than `ErrTraceCorrupted`, and the
metadata accumulated from the entries before the abort is returned
alongside the error rather than no context. -/
theorem mock_extract_corrupt (pre : List (Str × Str)) (k v : Str)
    (e : GoError) (rest : List (Str × Str))
    (hk : strToLower k = mockSpanidKey)
    (hv : atoi v = .error e)
    (hpre : (foreachKeyRun (newMockSpanMetadata 0) pre).2 = none) :
    MockTracer.Extract Format.textMap (pre ++ (k, v) :: rest)
      = (some (foreachKeyRun (newMockSpanMetadata 0) pre).1, some e) := by
  have hvisit : ∀ sm : MockSpanMetadata, mockExtractVisit sm k v = .error e := by
    intro sm
    simp only [mockExtractVisit, hk]
    rw [if_pos trivial, hv]
  simp only [MockTracer.Extract]
  rw [foreachKeyRun_append_ok pre (newMockSpanMetadata 0) hpre]
  simp only [foreachKeyRun, hvisit]

/-- Witness for C4: a carrier with a baggage entry, then the identity
key in mixed case holding the non-numeric `"xy"`, then a further baggage
entry.  Extraction returns the metadata holding only the first baggage
entry (the accumulation before the abort) together with the propagated
syntax error; the trailing entry is never visited. -/
theorem mock_extract_corrupt_witness :
    strToLower ['M','o','c','k','p','f','x','-','I','d','s','-','S','p','a','n','i','d']
      = mockSpanidKey
    ∧ atoi ['x','y'] = .error (GoError.atoiSyntaxError ['x','y'])
    ∧ (foreachKeyRun (newMockSpanMetadata 0)
        [(mockTextMapBaggagePfx ++ ['u'], ['1'])]).2 = none
    ∧ MockTracer.Extract Format.textMap
        ([(mockTextMapBaggagePfx ++ ['u'], ['1'])] ++
          (['M','o','c','k','p','f','x','-','I','d','s','-','S','p','a','n','i','d'],
            ['x','y']) :: [(mockTextMapBaggagePfx ++ ['z'], ['2'])])
      = (some { SpanID := 0, Baggage := [(['u'], ['1'])] },
         some (GoError.atoiSyntaxError ['x','y'])) := by
  refine ⟨by decide, rfl, rfl, ?_⟩
  have h := mock_extract_corrupt [(mockTextMapBaggagePfx ++ ['u'], ['1'])]
    ['M','o','c','k','p','f','x','-','I','d','s','-','S','p','a','n','i','d']
    ['x','y'] (GoError.atoiSyntaxError ['x','y'])
    [(mockTextMapBaggagePfx ++ ['z'], ['2'])] (by decide) rfl rfl
  exact h

/-- Counterexample for C4 as stated: at the concrete carrier
`\x7b"mockpfx-ids-spanid": "abc"\x7d`, Extract returns (a) a non-nil
(zero-populated) metadata value and (b) the Atoi syntax error, which is
not the `ErrTraceCorrupted` value the claim names. -/
theorem mock_extract_corrupt_ce :
    MockTracer.Extract Format.textMap [(mockSpanidKey, ['a','b','c'])]
      = (some { SpanID := 0, Baggage := [] },
         some (GoError.atoiSyntaxError ['a','b','c']))
    ∧ GoError.atoiSyntaxError ['a','b','c'] ≠ GoError.errTraceCorrupted
    ∧ (some ({ SpanID := 0, Baggage := [] } : MockSpanMetadata)
        ≠ (none : Option MockSpanMetadata)) := by
  exact ⟨by decide, by decide, by decide⟩

/-- Claim C5 (confirmed).  `newMockSpan` scopes the new span under the
first reference when the assembled options carry any causal reference
(in the mock every causal reference kind is intra-trace): `ParentID`
equals the `SpanID` of the first reference's referent metadata.  With
zero references the parent is 0 (a root) and a fresh identity is minted
from the package id counter. -/
theorem newMockSpan_parentID (name : String)
    (opts : V2.StartSpanOptions MockSpanMetadata)
    (mockIDSource : Int) (now : GoTime) :
    (∀ r rs, opts.CausalReferences = r :: rs →
        (newMockSpan name opts mockIDSource now).1.ParentID = r.SpanMetadata.SpanID)
    ∧ (opts.CausalReferences = [] →
        (newMockSpan name opts mockIDSource now).1.ParentID = 0
        ∧ (newMockSpan name opts mockIDSource now).1.spanMetadata.SpanID
            = mockIDSource + 1) := by
  constructor
  · intro r rs h
    simp [newMockSpan, h]
  · intro h
    exact ⟨by simp [newMockSpan, h], by
      simp [newMockSpan, h, nextMockID, newMockSpanMetadata]⟩

/-- Witness for C5, matching the spec's example scenario: a reference to
a context with spanid 2 yields `ParentID = 2`; with no references the
parent is 0. -/
theorem newMockSpan_parentID_witness :
    (newMockSpan "child"
        { CausalReferences :=
            [{ RefType := V2.RefBlockedParent
               SpanMetadata := { SpanID := 2, Baggage := [] } }] }
        1 0).1.ParentID = 2
    ∧ (newMockSpan "root" {} 1 0).1.ParentID = 0 :=
  ⟨(newMockSpan_parentID "child"
      { CausalReferences :=
          [{ RefType := V2.RefBlockedParent
             SpanMetadata := { SpanID := 2, Baggage := [] } }] } 1 0).1
      { RefType := V2.RefBlockedParent, SpanMetadata := { SpanID := 2, Baggage := [] } }
      [] rfl,
   ((newMockSpan_parentID "root" {} 1 0).2 rfl).1⟩

/-- Claim C6 (confirmed).  Applying a sequence of reference options to
`StartSpanOptions` appends exactly that sequence in order, with no
deduplication or reordering (duplicates in `rs`/`ps` are preserved as
given) -- in both the v1 interface form (`SpanReference.Apply`) and the
v2 functional form (`Reference`). -/
theorem reference_options_append {SM : Type}
    (init1 : V1.StartSpanOptions SM) (rs : List (V1.SpanReference SM))
    (init2 : V2.StartSpanOptions SM) (ps : List (V2.CausalReferenceType × SM)) :
    (V1.applyOptions (rs.map fun r => r.Apply) init1).references
        = init1.references ++ rs
    ∧ (V2.applyOptions (ps.map fun p => V2.Reference p.1 p.2) init2).CausalReferences
        = init2.CausalReferences ++ ps.map fun p => { RefType := p.1, SpanMetadata := p.2 } := by
  constructor
  · induction rs generalizing init1 with
    | nil => simp [V1.applyOptions]
    | cons r rest ih =>
      simp only [List.map_cons, V1.applyOptions, List.foldl_cons] at ih ⊢
      rw [ih (r.Apply init1)]
      simp [V1.SpanReference.Apply]
  · induction ps generalizing init2 with
    | nil => simp [V2.applyOptions]
    | cons p rest ih =>
      simp only [List.map_cons, V2.applyOptions, List.foldl_cons] at ih ⊢
      rw [ih (V2.Reference p.1 p.2 init2)]
      simp [V2.Reference]

/-- Claim C7 (corrected, amended form).  `IntraTrace` is the comparison
`r <= RefFinishedBefore`: it returns true for each of the four canonical
kinds and false for every value above `RefFinishedBefore`, but -- contra
the claim as stated -- it also returns true for every non-canonical
value below `RefBlockedParent` (negative `ReferenceType` values). -/
theorem intraTrace_boundary (r : V1.ReferenceType) :
    V1.ReferenceType.IntraTrace V1.RefBlockedParent = true
    ∧ V1.ReferenceType.IntraTrace V1.RefRPCClient = true
    ∧ V1.ReferenceType.IntraTrace V1.RefStartedBefore = true
    ∧ V1.ReferenceType.IntraTrace V1.RefFinishedBefore = true
    ∧ (V1.RefFinishedBefore < r → V1.ReferenceType.IntraTrace r = false)
    ∧ (r ≤ V1.RefFinishedBefore → V1.ReferenceType.IntraTrace r = true) := by
  refine ⟨by decide, by decide, by decide, by decide, fun h => ?_, fun h => ?_⟩
  · simp only [V1.ReferenceType.IntraTrace, decide_eq_false_iff_not]
    exact not_le.mpr h
  · simp only [V1.ReferenceType.IntraTrace, decide_eq_true_eq]
    exact h

/-- Witness for C7's amended theorem at the value 7 (above the canonical
range, hence not intra-trace). -/
theorem intraTrace_boundary_witness :
    V1.RefFinishedBefore < (7 : V1.ReferenceType)
    ∧ V1.ReferenceType.IntraTrace 7 = false :=
  ⟨by decide, (intraTrace_boundary 7).2.2.2.2.1 (by decide)⟩

/-- Counterexample for C7 as stated: `-1` is none of the four canonical
reference kinds, yet `IntraTrace (-1)` returns true (the Go comparison
`r <= RefFinishedBefore` admits every negative int). -/
theorem intraTrace_noncanonical_ce :
    V1.ReferenceType.IntraTrace (-1) = true
    ∧ (-1 : V1.ReferenceType) ≠ V1.RefBlockedParent
    ∧ (-1 : V1.ReferenceType) ≠ V1.RefRPCClient
    ∧ (-1 : V1.ReferenceType) ≠ V1.RefStartedBefore
    ∧ (-1 : V1.ReferenceType) ≠ V1.RefFinishedBefore := by
  exact ⟨by decide, by decide, by decide, by decide, by decide⟩

/-- Claim C8 (corrected, amended form).  `FinishWithOptions` records the
`FinishOptions` timestamp exactly as given -- including the zero value;
it never consults the clock -- and appends the batch log records after
any incrementally logged ones; only parameterless `Finish()` stamps the
current time. -/
theorem finish_time_semantics (s : MockSpan) (t : MockTracer)
    (opts : FinishOptions) (now : GoTime) :
    (s.FinishWithOptions t opts now).1.FinishTime = opts.FinishTime
    ∧ (s.FinishWithOptions t opts now).1.Logs = s.Logs ++ opts.BulkLogData
    ∧ (s.Finish t now).1.FinishTime = now :=
  ⟨rfl, rfl, rfl⟩

/-- Counterexample for C8 as stated: finishing with an unset (zero)
`FinishOptions` timestamp at wall-clock time 5 records finish time 0,
not the current time. -/
theorem finishWithOptions_zero_time_ce :
    (MockSpan.FinishWithOptions
        { ParentID := 0, OperationName := "op", StartTime := 1, FinishTime := 0,
          Tags := [], Logs := [], spanMetadata := { SpanID := 2, Baggage := [] } }
        MockTracer.New { FinishTime := 0, BulkLogData := [] } 5).1.FinishTime = 0
    ∧ (0 : GoTime) ≠ 5 :=
  ⟨rfl, by decide⟩

/-- Claim C9 (confirmed).  `startSpanFromContextWithTracer` (the body of
`StartSpanFromContext`, over an arbitrary tracer): when a span is bound
in the context, the new span is started with exactly one
`RefBlockedParent` reference pointing at that span's metadata; when none
is bound, with zero references; in both cases the returned context is
the given one with the new span bound innermost. -/
theorem startSpanFromContext_spec {Span SM : Type} (tracer : V1.Tracer Span SM)
    (ctx : V1.GoContext Span) (operationName : String)
    (opts : List (V1.StartSpanOption SM)) :
    (∀ p, V1.SpanFromContext ctx = some p →
        V1.startSpanFromContextWithTracer tracer ctx operationName opts
          = (tracer.startSpanWithOptions operationName
               { references := [{ type := V1.RefBlockedParent
                                  metadata := tracer.Metadata p }] },
             V1.ContextWithSpan ctx
               (tracer.startSpanWithOptions operationName
                 { references := [{ type := V1.RefBlockedParent
                                    metadata := tracer.Metadata p }] })))
    ∧ (V1.SpanFromContext ctx = none →
        V1.startSpanFromContextWithTracer tracer ctx operationName opts
          = (tracer.startSpanWithOptions operationName { references := [] },
             V1.ContextWithSpan ctx
               (tracer.startSpanWithOptions operationName
                 { references := [] }))) := by
  constructor
  · intro p h
    simp [V1.startSpanFromContextWithTracer, h, V1.Tracer.StartSpan,
      V1.applyOptions, V1.SpanReference.Apply, V1.ReferenceType.Point]
  · intro h
    simp [V1.startSpanFromContextWithTracer, h, V1.Tracer.StartSpan,
      V1.applyOptions]

/-- Witness for C9 at a concrete tracer (spans are naturals, the started
span is the assembled reference-list length, so the bound-parent case
yields span `1` carrying one reference) and the context binding span 5. -/
theorem startSpanFromContext_spec_witness :
    V1.SpanFromContext (V1.ContextWithSpan (V1.GoContext.background) (5 : Nat))
      = some 5
    ∧ V1.startSpanFromContextWithTracer
        ({ startSpanWithOptions := fun _ o => o.references.length
           Metadata := fun sp => sp } : V1.Tracer Nat Nat)
        (V1.ContextWithSpan V1.GoContext.background 5) "op" []
      = (1, V1.ContextWithSpan (V1.ContextWithSpan V1.GoContext.background 5) 1) := by
  refine ⟨rfl, ?_⟩
  have h := (startSpanFromContext_spec
      ({ startSpanWithOptions := fun _ o => o.references.length
         Metadata := fun sp => sp } : V1.Tracer Nat Nat)
      (V1.ContextWithSpan V1.GoContext.background 5) "op" []).1 5 rfl
  simpa using h

/-- Claim C10 (confirmed).  Both finish operations append exactly the
finishing span as one new entry at the end of the tracer's
`FinishedSpans` (so the list is in finish order); `Reset` replaces the
list with an empty one; and a span finishing against a reset tracer
state still appends itself (spans are not detached by `Reset`). -/
theorem finishedSpans_sink (s : MockSpan) (t : MockTracer) (now : GoTime)
    (opts : FinishOptions) :
    (s.Finish t now).2.FinishedSpans = t.FinishedSpans ++ [(s.Finish t now).1]
    ∧ (s.FinishWithOptions t opts now).2.FinishedSpans
        = t.FinishedSpans ++ [(s.FinishWithOptions t opts now).1]
    ∧ t.Reset.FinishedSpans = []
    ∧ (s.Finish t.Reset now).2.FinishedSpans = [(s.Finish t.Reset now).1] :=
  ⟨rfl, rfl, rfl, rfl⟩
